import Mathlib

/-!
# Verification of the investomommy portfolio ledger

A shallow embedding of `app/services/portfolio_service.py`,
`app/api/routes.py` (portfolio endpoints), `app/models/schemas.py`
and the quote-provider interface of `app/services/fmp_service.py`.

Modelling conventions:
* The `portfolio_holdings` table is a `List Holding`; SQLAlchemy's
  `query(...).filter(...).first()` becomes `List.find?`, `.all()` with a
  user filter becomes `List.filter`, `db.delete(row)` becomes
  `List.eraseP` (erase the first matching row), and in-place mutation of
  the row found by `.first()` becomes `updateFirst` (rewrite the first
  matching row).
* Python floats are modelled as `Rat` (the claims under scrutiny are
  structural identities of the arithmetic, not rounding facts).
* The Quote Provider (`fmp_service.get_stock_quote`) has three outcomes
  at its call sites: a quote dict (`data[0]`, which may lack the
  `"price"` key), `None` (HTTP 200 with an empty body), or a raised
  exception (`raise_for_status()` / httpx transport errors — nothing in
  the app catches them). The returned outcomes are `String → Option Quote`
  with `Quote.price : Option Rat`; the full outcome, raising included,
  is `QuoteService`/`QuoteResult`, and `get_holdings_exc` is the listing
  with the exception propagated. `get_company_profile`'s returned
  outcome is modelled with `Profile.companyName : Option String`.
* `HTTPException(status_code, detail)` becomes the `ApiError` structure;
  every ledger operation returns the (possibly updated) table together
  with an `Except ApiError` result, the table being returned unchanged on
  the error paths (the Python code raises before any mutation).
-/

/-- A row of the `portfolio_holdings` table (`app/models/database.py`
`PortfolioHolding`: id, user_id, symbol, company_name, shares,
purchase_price, purchased_at). -/
structure Holding where
  id : Nat
  user_id : Nat
  symbol : String
  company_name : String
  shares : Int
  purchase_price : Rat
  purchased_at : Nat
deriving DecidableEq, Repr

/-- The quote dict returned by `FMPService.get_stock_quote` (`data[0]`);
the `"price"` key may be absent, hence `Option Rat`. -/
structure Quote where
  price : Option Rat
deriving DecidableEq, Repr

/-- The profile dict returned by `FMPService.get_company_profile`;
the `"companyName"` key may be absent, hence `Option String`. -/
structure Profile where
  companyName : Option String
deriving DecidableEq, Repr

/-- The Quote Provider's quote endpoint restricted to fetches that
return: `none` models an HTTP 200 with an empty body
(`data[0] if data else None`). The raised-exception path of
`get_stock_quote` is modelled separately by `QuoteService`. -/
def QuoteProvider := String → Option Quote

/-- The Quote Provider's profile endpoint. -/
def ProfileProvider := String → Option Profile

/-- `HTTPException(status_code=..., detail=...)` as raised by the service
and route layers. -/
structure ApiError where
  status_code : Nat
  detail : String
deriving DecidableEq, Repr

/-- Request schema `PortfolioHoldingCreate` (`app/models/schemas.py`):
symbol, shares, purchase_price. The `Field(gt=0)` constraints are the
separate predicate `portfolioHoldingCreateValid`. -/
structure PortfolioHoldingCreate where
  symbol : String
  shares : Int
  purchase_price : Rat
deriving DecidableEq, Repr

/-- The boundary-layer (pydantic) validation of `PortfolioHoldingCreate`:
`shares: int = Field(..., gt=0)` and `purchase_price: float = Field(..., gt=0)`. -/
def portfolioHoldingCreateValid (d : PortfolioHoldingCreate) : Bool :=
  decide (0 < d.shares) && decide (0 < d.purchase_price)

/-- Response schema `PortfolioHoldingResponse` (`app/models/schemas.py`). -/
structure PortfolioHoldingResponse where
  id : Nat
  symbol : String
  company_name : String
  shares : Int
  purchase_price : Rat
  current_price : Rat
  total_value : Rat
  gain_loss : Rat
  gain_loss_percent : Rat
  purchased_at : Nat
deriving DecidableEq, Repr

/-- Response schema `PortfolioSummary` (`app/models/schemas.py`). -/
structure PortfolioSummary where
  total_invested : Rat
  current_value : Rat
  total_gain_loss : Rat
  total_gain_loss_percent : Rat
  holdings : List PortfolioHoldingResponse
deriving DecidableEq, Repr

/-- The joint ownership filter used by `remove_holding` and
`update_holding`: `PortfolioHolding.id == holding_id,
PortfolioHolding.user_id == user.id`. -/
def holdingMatches (holding_id user_id : Nat) (h : Holding) : Bool :=
  h.id == holding_id && h.user_id == user_id

/-- Rewrite the first row satisfying `p` with `f` (the ORM mutation of
the single row returned by `.first()`). -/
def updateFirst (p : Holding → Bool) (f : Holding → Holding) :
    List Holding → List Holding
  | [] => []
  | h :: t => if p h then f h :: t else h :: updateFirst p f t

/-- `PortfolioService.add_holding` (portfolio_service.py lines 16-57):
resolve the symbol against the profile endpoint; 404 if unresolvable;
otherwise persist a new row (symbol upper-cased, company name defaulting
to the symbol) and return it. `nextId`/`now` model the id and timestamp
the database assigns. -/
def add_holding (profiles : ProfileProvider) (db : List Holding)
    (user_id nextId now : Nat) (data : PortfolioHoldingCreate) :
    List Holding × Except ApiError Holding :=
  match profiles data.symbol with
  | none => (db, .error { status_code := 404, detail := "Stock symbol not found" })
  | some profile =>
    let company_name := profile.companyName.getD data.symbol
    let holding : Holding :=
      { id := nextId, user_id := user_id, symbol := data.symbol.toUpper,
        company_name := company_name, shares := data.shares,
        purchase_price := data.purchase_price, purchased_at := now }
    (db ++ [holding], .ok holding)

/-- The per-holding body of the loop in `PortfolioService.get_holdings`
(portfolio_service.py lines 76-98): resolve the current price with the
purchase-price fallback, compute the valuation, build the response. -/
def holdingResponse (qp : QuoteProvider) (holding : Holding) :
    PortfolioHoldingResponse :=
  let current_price :=
    match qp holding.symbol with
    | some quote => quote.price.getD holding.purchase_price
    | none => holding.purchase_price
  let total_value := current_price * (holding.shares : Rat)
  let invested := holding.purchase_price * (holding.shares : Rat)
  let gain_loss := total_value - invested
  let gain_loss_percent := if 0 < invested then gain_loss / invested * 100 else 0
  { id := holding.id, symbol := holding.symbol,
    company_name := holding.company_name, shares := holding.shares,
    purchase_price := holding.purchase_price, current_price := current_price,
    total_value := total_value, gain_loss := gain_loss,
    gain_loss_percent := gain_loss_percent,
    purchased_at := holding.purchased_at }

/-- `PortfolioService.get_holdings` (portfolio_service.py lines 59-100):
all of the user's rows, each valued by `holdingResponse`. -/
def get_holdings (qp : QuoteProvider) (db : List Holding) (user_id : Nat) :
    List PortfolioHoldingResponse :=
  (db.filter (fun h => h.user_id == user_id)).map (holdingResponse qp)

/-- `PortfolioService.get_portfolio_summary` (portfolio_service.py lines
102-126): one `get_holdings` call, then the aggregate sums. -/
def get_portfolio_summary (qp : QuoteProvider) (db : List Holding)
    (user_id : Nat) : PortfolioSummary :=
  let holdings := get_holdings qp db user_id
  let total_invested :=
    (holdings.map (fun h => h.purchase_price * (h.shares : Rat))).sum
  let current_value := (holdings.map (fun h => h.total_value)).sum
  let total_gain_loss := current_value - total_invested
  let total_gain_loss_percent :=
    if 0 < total_invested then total_gain_loss / total_invested * 100 else 0
  { total_invested := total_invested, current_value := current_value,
    total_gain_loss := total_gain_loss,
    total_gain_loss_percent := total_gain_loss_percent,
    holdings := holdings }

/-- `PortfolioService.remove_holding` (portfolio_service.py lines
128-154): joint `(id, owner)` lookup, 404 when absent, otherwise delete
that row. -/
def remove_holding (db : List Holding) (user_id holding_id : Nat) :
    List Holding × Except ApiError Bool :=
  match db.find? (holdingMatches holding_id user_id) with
  | none => (db, .error { status_code := 404, detail := "Holding not found" })
  | some _ => (db.eraseP (holdingMatches holding_id user_id), .ok true)

/-- `PortfolioService.update_holding` (portfolio_service.py lines
156-196): joint `(id, owner)` lookup first (404 when absent), then the
`shares <= 0` guard (400), then mutate only the share count of the row
found. -/
def update_holding (db : List Holding) (user_id holding_id : Nat)
    (shares : Int) : List Holding × Except ApiError Holding :=
  match db.find? (holdingMatches holding_id user_id) with
  | none => (db, .error { status_code := 404, detail := "Holding not found" })
  | some holding =>
    if shares ≤ 0 then
      (db, .error { status_code := 400, detail := "Shares must be greater than 0" })
    else
      (updateFirst (holdingMatches holding_id user_id)
        (fun h => { h with shares := shares }) db,
       .ok { holding with shares := shares })

/-- The five derived numbers a valuation call site produces. -/
structure SiteValuation where
  current_price : Rat
  total_value : Rat
  invested : Rat
  gain_loss : Rat
  gain_loss_percent : Rat
deriving DecidableEq, Repr

/-- The response-valuation arithmetic at the `add_holding` route
(`app/api/routes.py` lines 277-293): current-price fallback, then
total_value / invested / gain_loss / gain_loss_percent. -/
def routes_add_holding_valuation (shares : Int) (purchase_price : Rat)
    (quote : Option Quote) : SiteValuation :=
  let current_price :=
    match quote with
    | some q => q.price.getD purchase_price
    | none => purchase_price
  let total_value := current_price * (shares : Rat)
  let invested := purchase_price * (shares : Rat)
  let gain_loss := total_value - invested
  { current_price := current_price, total_value := total_value,
    invested := invested, gain_loss := gain_loss,
    gain_loss_percent := if 0 < invested then gain_loss / invested * 100 else 0 }

/-- The response-valuation arithmetic at the `update_holding` route
(`app/api/routes.py` lines 329-345), transcribed from its own call site. -/
def routes_update_holding_valuation (shares : Int) (purchase_price : Rat)
    (quote : Option Quote) : SiteValuation :=
  let current_price :=
    match quote with
    | some q => q.price.getD purchase_price
    | none => purchase_price
  let total_value := current_price * (shares : Rat)
  let invested := purchase_price * (shares : Rat)
  let gain_loss := total_value - invested
  { current_price := current_price, total_value := total_value,
    invested := invested, gain_loss := gain_loss,
    gain_loss_percent := if 0 < invested then gain_loss / invested * 100 else 0 }

/-- The valuation formula as the specification states it, as a function
of shares, purchase price and an already-resolved current price:
total_value = current_price * shares, invested = purchase_price * shares,
gain_loss = total_value - invested, percent = gain_loss / invested * 100
when invested > 0, else 0. -/
def spec_valuation (shares : Int) (purchase_price current_price : Rat) :
    SiteValuation :=
  { current_price := current_price,
    total_value := current_price * (shares : Rat),
    invested := purchase_price * (shares : Rat),
    gain_loss := current_price * (shares : Rat) - purchase_price * (shares : Rat),
    gain_loss_percent :=
      if 0 < purchase_price * (shares : Rat) then
        (current_price * (shares : Rat) - purchase_price * (shares : Rat)) /
          (purchase_price * (shares : Rat)) * 100
      else 0 }

/-! ## Helper lemmas -/

theorem holdingMatches_iff (hid uid : Nat) (h : Holding) :
    holdingMatches hid uid h = true ↔ h.id = hid ∧ h.user_id = uid := by
  simp [holdingMatches]

theorem find?_eq_none_of_no_match (db : List Holding) (hid uid : Nat)
    (hnone : ∀ h ∈ db, ¬(h.id = hid ∧ h.user_id = uid)) :
    db.find? (holdingMatches hid uid) = none := by
  rw [List.find?_eq_none]
  intro x hx hmatch
  exact hnone x hx ((holdingMatches_iff _ _ _).mp hmatch)

/-! ## C3: non-positive share updates are rejected, not implicit removes -/

/-- C3: for a holding owned by the caller and any `new_shares ≤ 0`,
`update_holding` fails with the 400 InvalidArgument error and returns the
table unchanged (the looked-up row, share count included, is still
present verbatim) — it is never treated as an implicit remove. -/
theorem c3_nonpositive_update_rejected (db : List Holding) (uid hid : Nat)
    (s : Int) (h0 : Holding)
    (hfind : db.find? (holdingMatches hid uid) = some h0) (hs : s ≤ 0) :
    update_holding db uid hid s =
      (db, .error { status_code := 400, detail := "Shares must be greater than 0" })
    ∧ h0 ∈ (update_holding db uid hid s).1 := by
  have heq : update_holding db uid hid s =
      (db, .error { status_code := 400, detail := "Shares must be greater than 0" }) := by
    simp [update_holding, hfind, hs]
  exact ⟨heq, by rw [heq]; exact List.mem_of_find?_eq_some hfind⟩

/-- C3 witness: a concrete owned holding and `new_shares = 0`. -/
theorem c3_nonpositive_update_rejected_witness :
    ([⟨1, 7, "AAPL", "Apple", 10, 5, 0⟩] :
        List Holding).find? (holdingMatches 1 7) = some ⟨1, 7, "AAPL", "Apple", 10, 5, 0⟩
    ∧ (0 : Int) ≤ 0
    ∧ update_holding [⟨1, 7, "AAPL", "Apple", 10, 5, 0⟩] 7 1 0 =
        ([⟨1, 7, "AAPL", "Apple", 10, 5, 0⟩],
         .error { status_code := 400, detail := "Shares must be greater than 0" }) :=
  ⟨by decide, le_refl 0,
   (c3_nonpositive_update_rejected [⟨1, 7, "AAPL", "Apple", 10, 5, 0⟩] 7 1 0
      ⟨1, 7, "AAPL", "Apple", 10, 5, 0⟩ (by decide) (le_refl 0)).1⟩

/-! ## C5: unresolvable symbol at creation -/

/-- C5: when the profile endpoint cannot resolve the requested symbol,
`add_holding` fails with the 404 NotFound error and persists nothing:
the table is returned unchanged and its row count is unchanged. -/
theorem c5_unresolvable_symbol_add_rejected (profiles : ProfileProvider)
    (db : List Holding) (user nextId now : Nat) (data : PortfolioHoldingCreate)
    (hfail : profiles data.symbol = none) :
    add_holding profiles db user nextId now data =
      (db, .error { status_code := 404, detail := "Stock symbol not found" })
    ∧ (add_holding profiles db user nextId now data).1.length = db.length := by
  have heq : add_holding profiles db user nextId now data =
      (db, .error { status_code := 404, detail := "Stock symbol not found" }) := by
    simp [add_holding, hfail]
  exact ⟨heq, by rw [heq]⟩

/-- C5 witness: a provider with no record for any symbol. -/
theorem c5_unresolvable_symbol_add_rejected_witness :
    ((fun _ => none : ProfileProvider) "ZZZZ" = none)
    ∧ add_holding (fun _ => none) [] 7 1 0 ⟨"ZZZZ", 3, 10⟩ =
        ([], .error { status_code := 404, detail := "Stock symbol not found" }) :=
  ⟨rfl, (c5_unresolvable_symbol_add_rejected (fun _ => none) [] 7 1 0
          ⟨"ZZZZ", 3, 10⟩ rfl).1⟩

/-! ## C10: ownership lookup is evaluated before share validation -/

/-- C10: when no row matches `(holding_id, owner = caller)`,
`update_holding` answers the 404 NotFound error for every `new_shares`
value, non-positive ones included; it never answers a 400 InvalidArgument,
so a non-owner cannot learn that the holding exists. -/
theorem c10_lookup_before_share_validation (db : List Holding)
    (uid hid : Nat) (s : Int)
    (hnone : ∀ h ∈ db, ¬(h.id = hid ∧ h.user_id = uid)) :
    (update_holding db uid hid s).2 =
      .error { status_code := 404, detail := "Holding not found" }
    ∧ ∀ d : String,
        (update_holding db uid hid s).2 ≠ .error { status_code := 400, detail := d } := by
  have hf : db.find? (holdingMatches hid uid) = none :=
    find?_eq_none_of_no_match db hid uid hnone
  refine ⟨by simp [update_holding, hf], ?_⟩
  intro d hcontra
  rw [update_holding, hf] at hcontra
  simp at hcontra

/-- C10 witness: the holding exists but belongs to user 8; caller 7 sends
`new_shares = -5` and still receives the 404 error. -/
theorem c10_lookup_before_share_validation_witness :
    (∀ h ∈ ([⟨1, 8, "AAPL", "Apple", 10, 5, 0⟩] : List Holding),
        ¬(h.id = 1 ∧ h.user_id = 7))
    ∧ (update_holding [⟨1, 8, "AAPL", "Apple", 10, 5, 0⟩] 7 1 (-5)).2 =
        .error { status_code := 404, detail := "Holding not found" } :=
  ⟨by decide,
   (c10_lookup_before_share_validation [⟨1, 8, "AAPL", "Apple", 10, 5, 0⟩] 7 1 (-5)
      (by decide)).1⟩

/-! ## C8: the three valuation call sites agree -/

/-- The valuation numbers read off the listing call site
(`holdingResponse`), with `invested` recomputed the way the loop body
holds it (`purchase_price * shares`). -/
def listingSiteValuation (qp : QuoteProvider) (h : Holding) : SiteValuation :=
  { current_price := (holdingResponse qp h).current_price,
    total_value := (holdingResponse qp h).total_value,
    invested := (holdingResponse qp h).purchase_price *
      ((holdingResponse qp h).shares : Rat),
    gain_loss := (holdingResponse qp h).gain_loss,
    gain_loss_percent := (holdingResponse qp h).gain_loss_percent }

/-- C8: the holding-creation response site, the update-shares response
site and the listing site compute the same valuation function, and that
function is exactly the specified formula (total = current * shares,
invested = purchase * shares, gain = total - invested, percent =
gain / invested * 100 when invested > 0, else 0). -/
theorem c8_three_call_sites_agree (shares : Int) (pp : Rat) (q : Option Quote)
    (qp : QuoteProvider) (h : Holding) :
    routes_add_holding_valuation shares pp q =
      routes_update_holding_valuation shares pp q
    ∧ routes_add_holding_valuation h.shares h.purchase_price (qp h.symbol) =
        listingSiteValuation qp h
    ∧ routes_add_holding_valuation shares pp q =
        spec_valuation shares pp
          ((routes_add_holding_valuation shares pp q).current_price) := by
  refine ⟨rfl, rfl, ?_⟩
  cases q with
  | none => rfl
  | some quote => rfl

/-! ## C4: lookup is owner-scoped; non-owner and nonexistent are alike -/

/-- C4: when no row matches `(holding_id, owner = caller)` — whether the
id is absent altogether or the row belongs to another user —
`remove_holding` and `update_holding` both return the identical 404
NotFound error with the table untouched; the answer is literally the same
value across any two such tables, so the two cases are indistinguishable
to the caller; and every row of the table (in particular one with that id
owned by someone else) survives the call and is still found by the joint
lookup keyed to its actual owner. -/
theorem c4_nonowner_indistinguishable_from_missing (db1 db2 : List Holding)
    (uid hid : Nat) (s : Int)
    (h1 : ∀ h ∈ db1, ¬(h.id = hid ∧ h.user_id = uid))
    (h2 : ∀ h ∈ db2, ¬(h.id = hid ∧ h.user_id = uid)) :
    remove_holding db1 uid hid =
      (db1, .error { status_code := 404, detail := "Holding not found" })
    ∧ update_holding db1 uid hid s =
      (db1, .error { status_code := 404, detail := "Holding not found" })
    ∧ (remove_holding db1 uid hid).2 = (remove_holding db2 uid hid).2
    ∧ (update_holding db1 uid hid s).2 = (update_holding db2 uid hid s).2
    ∧ ∀ h ∈ db1, h ∈ (remove_holding db1 uid hid).1
        ∧ ((remove_holding db1 uid hid).1.find?
            (holdingMatches h.id h.user_id)).isSome = true := by
  have hf1 : db1.find? (holdingMatches hid uid) = none :=
    find?_eq_none_of_no_match db1 hid uid h1
  have hf2 : db2.find? (holdingMatches hid uid) = none :=
    find?_eq_none_of_no_match db2 hid uid h2
  refine ⟨by simp [remove_holding, hf1], by simp [update_holding, hf1],
    by simp [remove_holding, hf1, hf2], by simp [update_holding, hf1, hf2], ?_⟩
  intro h hmem
  have hunch : (remove_holding db1 uid hid).1 = db1 := by simp [remove_holding, hf1]
  refine ⟨by rw [hunch]; exact hmem, ?_⟩
  rw [hunch]
  exact List.find?_isSome.mpr ⟨h, hmem, by simp [holdingMatches]⟩

/-- C4 witness: the holding exists but is owned by user 8; caller 7 gets
the same answer as against the empty table. -/
theorem c4_nonowner_indistinguishable_from_missing_witness :
    (∀ h ∈ ([⟨1, 8, "AAPL", "Apple", 10, 5, 0⟩] : List Holding),
        ¬(h.id = 1 ∧ h.user_id = 7))
    ∧ (∀ h ∈ ([] : List Holding), ¬(h.id = 1 ∧ h.user_id = 7))
    ∧ (remove_holding [⟨1, 8, "AAPL", "Apple", 10, 5, 0⟩] 7 1).2 =
        (remove_holding [] 7 1).2 :=
  ⟨by decide, by decide,
   (c4_nonowner_indistinguishable_from_missing
      [⟨1, 8, "AAPL", "Apple", 10, 5, 0⟩] [] 7 1 3 (by decide) (by decide)).2.2.1⟩

/-! ## C1: quote failure during listing

`FMPService.get_stock_quote` has three outcomes at its call site in
`get_holdings`: a quote dict (`data[0]`), `None` (an HTTP 200 with an
empty body), or a **raised exception** (`response.raise_for_status()` at
fmp_service.py line 72, or an httpx transport error). There is no
`try/except` anywhere in the app, so in the listing loop
(portfolio_service.py line 77) a raised quote fetch propagates and
aborts the entire call; only the `None`/missing-price modes reach the
purchase-price fallback. `QuoteResult`/`QuoteService` model the full
outcome, and `get_holdings_exc` is the listing with the exception path
propagated. -/

/-- The outcome of one `get_stock_quote` call: a quote dict (`data[0]`),
a `None` return (HTTP 200, empty body), or a raised exception
(`raise_for_status` / transport error) carrying its status. -/
inductive QuoteResult where
  | quote (q : Quote)
  | noData
  | httpError (status : Nat)
deriving DecidableEq, Repr

/-- The Quote Provider's quote endpoint with its exception path. -/
def QuoteService := String → QuoteResult

/-- Whether a `get_stock_quote` call raises. -/
def quoteRaises : QuoteResult → Bool
  | .httpError _ => true
  | _ => false

/-- The non-raising view of a `QuoteService`: exactly the
`Option Quote` value that the line
`current_price = quote.get("price", ...) if quote else ...` consumes
when the fetch returns instead of raising. -/
def toQuoteProvider (qs : QuoteService) : QuoteProvider :=
  fun s =>
    match qs s with
    | .quote q => some q
    | _ => none

/-- One iteration of the listing loop including the fetch: a raised
fetch propagates as the error; a returned fetch feeds the loop body
(`holdingResponse`) the `Option Quote` it produced. -/
def holdingResponseExc (qs : QuoteService) (holding : Holding) :
    Except Nat PortfolioHoldingResponse :=
  match qs holding.symbol with
  | .httpError s => .error s
  | .noData => .ok (holdingResponse (fun _ => none) holding)
  | .quote q => .ok (holdingResponse (fun _ => some q) holding)

/-- The listing loop of `get_holdings` with exception propagation: the
rows are processed in order and the first raised fetch aborts the whole
loop. -/
def listHoldingsLoop (qs : QuoteService) :
    List Holding → Except Nat (List PortfolioHoldingResponse)
  | [] => .ok []
  | h :: t =>
    match holdingResponseExc qs h with
    | .error s => .error s
    | .ok r =>
      match listHoldingsLoop qs t with
      | .error s => .error s
      | .ok rs => .ok (r :: rs)

/-- `PortfolioService.get_holdings` with the uncaught-exception path of
the quote fetch made explicit. -/
def get_holdings_exc (qs : QuoteService) (db : List Holding)
    (user_id : Nat) : Except Nat (List PortfolioHoldingResponse) :=
  listHoldingsLoop qs (db.filter (fun h => h.user_id == user_id))

theorem holdingResponseExc_ok (qs : QuoteService) (h : Holding)
    (hne : quoteRaises (qs h.symbol) = false) :
    holdingResponseExc qs h = .ok (holdingResponse (toQuoteProvider qs) h) := by
  cases hq : qs h.symbol with
  | quote q => simp [holdingResponseExc, hq, holdingResponse, toQuoteProvider]
  | noData => simp [holdingResponseExc, hq, holdingResponse, toQuoteProvider]
  | httpError s => rw [hq] at hne; simp [quoteRaises] at hne

theorem listHoldingsLoop_ok_of_no_error (qs : QuoteService) :
    ∀ l : List Holding, (∀ h ∈ l, quoteRaises (qs h.symbol) = false) →
      listHoldingsLoop qs l = .ok (l.map (holdingResponse (toQuoteProvider qs))) := by
  intro l
  induction l with
  | nil => intro _; rfl
  | cons a t ih =>
    intro hl
    have ha : holdingResponseExc qs a = .ok (holdingResponse (toQuoteProvider qs) a) :=
      holdingResponseExc_ok qs a (hl a (List.mem_cons_self a t))
    have ht := ih (fun x hx => hl x (List.mem_cons_of_mem a hx))
    simp [listHoldingsLoop, ha, ht]

theorem listHoldingsLoop_error_of_mem_error (qs : QuoteService) :
    ∀ (l : List Holding) (h : Holding) (s : Nat), h ∈ l →
      qs h.symbol = .httpError s →
      ∃ s', listHoldingsLoop qs l = .error s' := by
  intro l
  induction l with
  | nil => intro h s hm _; simp at hm
  | cons a t ih =>
    intro h s hm herr
    rcases List.mem_cons.mp hm with rfl | hm'
    · exact ⟨s, by simp [listHoldingsLoop, holdingResponseExc, herr]⟩
    · cases hra : holdingResponseExc qs a with
      | error s2 => exact ⟨s2, by simp [listHoldingsLoop, hra]⟩
      | ok r =>
        obtain ⟨s', hs'⟩ := ih h s hm' herr
        exact ⟨s', by simp [listHoldingsLoop, hra, hs']⟩

/-- Fixture for the C1 counterexample: three resolvable symbols, but the
AAPL quote fetch raises a 500. -/
def c1errQS : QuoteService :=
  fun s =>
    if s == "AAPL" then .httpError 500
    else if s == "MSFT" then .quote { price := some 60 }
    else .quote { price := some 150 }

/-- Fixture for the C1 counterexample: user 7 holds three stocks, the
raising one in the middle. -/
def c1db3 : List Holding :=
  [⟨2, 7, "MSFT", "Microsoft", 2, 50, 0⟩,
   ⟨1, 7, "AAPL", "Apple", 10, 5, 0⟩,
   ⟨3, 7, "GOOG", "Alphabet", 1, 100, 0⟩]

/-- C1 counterexample: with three holdings and a single quote whose
fetch raises, the whole listing call fails (it returns the propagated
500 error, not a three-entry list) — one failed quote does cause the
whole listing call to fail, contrary to the claim. -/
theorem c1_counterexample_http_error_aborts_listing :
    get_holdings_exc c1errQS c1db3 7 = .error 500
    ∧ (c1db3.filter (fun x => x.user_id == 7)).length = 3 :=
  ⟨rfl, rfl⟩

/-- C1 (amended): the per-item purchase-price fallback covers exactly
the failure mode in which the quote fetch *returns* — an empty response
(`None`) or a quote without a price. If no owned holding's fetch raises,
the listing succeeds with one response per stored row: a holding whose
fetch returned no quote is valued at its own purchase price with zero
gain/loss and zero percent, and every holding whose quote carries a
price gets the live-computed values. A fetch that raises (HTTP error
status or transport failure), however, propagates uncaught and aborts
the whole listing call. -/
theorem c1_amended_fallback_limited_to_returned_quotes (qs : QuoteService)
    (db : List Holding) (uid : Nat) (h : Holding)
    (hmem : h ∈ db) (hu : h.user_id = uid) (hfail : qs h.symbol = .noData)
    (hnoerr : ∀ x ∈ db, quoteRaises (qs x.symbol) = false) :
    get_holdings_exc qs db uid = .ok (get_holdings (toQuoteProvider qs) db uid)
    ∧ (get_holdings (toQuoteProvider qs) db uid).length =
        (db.filter (fun x => x.user_id == uid)).length
    ∧ holdingResponse (toQuoteProvider qs) h ∈ get_holdings (toQuoteProvider qs) db uid
    ∧ (holdingResponse (toQuoteProvider qs) h).current_price = h.purchase_price
    ∧ (holdingResponse (toQuoteProvider qs) h).gain_loss = 0
    ∧ (holdingResponse (toQuoteProvider qs) h).gain_loss_percent = 0
    ∧ (∀ (h' : Holding) (q : Quote) (p : Rat), h' ∈ db → h'.user_id = uid →
        qs h'.symbol = .quote q → q.price = some p →
        holdingResponse (toQuoteProvider qs) h' ∈
          get_holdings (toQuoteProvider qs) db uid
        ∧ (holdingResponse (toQuoteProvider qs) h').current_price = p
        ∧ (holdingResponse (toQuoteProvider qs) h').total_value =
            p * (h'.shares : Rat)
        ∧ (holdingResponse (toQuoteProvider qs) h').gain_loss =
            p * (h'.shares : Rat) - h'.purchase_price * (h'.shares : Rat))
    ∧ ∀ (qs2 : QuoteService) (db2 : List Holding) (uid2 : Nat)
        (h2 : Holding) (s : Nat),
        h2 ∈ db2 → h2.user_id = uid2 → qs2 h2.symbol = .httpError s →
        ∃ s', get_holdings_exc qs2 db2 uid2 = .error s' := by
  have hqp : toQuoteProvider qs h.symbol = none := by
    simp [toQuoteProvider, hfail]
  have hfilt : h ∈ db.filter (fun x => x.user_id == uid) :=
    List.mem_filter.mpr ⟨hmem, by simp [hu]⟩
  refine ⟨?_, by simp [get_holdings], ?_, by simp [holdingResponse, hqp],
    by simp [holdingResponse, hqp], by simp [holdingResponse, hqp], ?_, ?_⟩
  · rw [get_holdings_exc, listHoldingsLoop_ok_of_no_error qs _
      (fun x hx => hnoerr x (List.mem_of_mem_filter hx))]
    rfl
  · simp only [get_holdings]
    exact List.mem_map_of_mem _ hfilt
  · intro h' q p hmem' hu' hq hp
    have hqp' : toQuoteProvider qs h'.symbol = some q := by
      simp [toQuoteProvider, hq]
    have hfilt' : h' ∈ db.filter (fun x => x.user_id == uid) :=
      List.mem_filter.mpr ⟨hmem', by simp [hu']⟩
    refine ⟨?_, by simp [holdingResponse, hqp', hp],
      by simp [holdingResponse, hqp', hp], by simp [holdingResponse, hqp', hp]⟩
    simp only [get_holdings]
    exact List.mem_map_of_mem _ hfilt'
  · intro qs2 db2 uid2 h2 s hm2 hu2 herr
    have hfl : h2 ∈ db2.filter (fun x => x.user_id == uid2) :=
      List.mem_filter.mpr ⟨hm2, by simp [hu2]⟩
    exact listHoldingsLoop_error_of_mem_error qs2 _ h2 s hfl herr

/-- Fixture for the C1 witness: the MSFT fetch returns a priced quote,
every other fetch returns an empty response; none raises. -/
def c1qs : QuoteService :=
  fun s => if s == "MSFT" then .quote { price := some 60 } else .noData

/-- Fixture for the C1 witness: the holding whose fetch returns empty. -/
def c1h : Holding := ⟨1, 7, "AAPL", "Apple", 10, 5, 0⟩

/-- Fixture for the C1 witness: user 7 holds AAPL and MSFT. -/
def c1db : List Holding := [c1h, ⟨2, 7, "MSFT", "Microsoft", 2, 50, 0⟩]

/-- C1 (amended) witness: with no fetch raising and the AAPL fetch
returning empty, the listing succeeds and values AAPL at its purchase
price with zero gain. -/
theorem c1_amended_fallback_limited_to_returned_quotes_witness :
    c1h ∈ c1db ∧ c1h.user_id = 7 ∧ c1qs c1h.symbol = .noData
    ∧ (∀ x ∈ c1db, quoteRaises (c1qs x.symbol) = false)
    ∧ get_holdings_exc c1qs c1db 7 =
        .ok (get_holdings (toQuoteProvider c1qs) c1db 7)
    ∧ (holdingResponse (toQuoteProvider c1qs) c1h).gain_loss = 0 := by
  have hc := c1_amended_fallback_limited_to_returned_quotes c1qs c1db 7 c1h
    (by decide) (by decide) (by decide) (by decide)
  exact ⟨by decide, by decide, by decide, by decide, hc.1, hc.2.2.2.2.1⟩

/-! ## C6: the summary aggregates exactly the listing it returns -/

theorem get_holdings_total_value_eq (qp : QuoteProvider) (db : List Holding)
    (uid : Nat) :
    ∀ r ∈ get_holdings qp db uid,
      r.total_value = r.current_price * (r.shares : Rat) := by
  intro r hr
  simp only [get_holdings, List.mem_map] at hr
  obtain ⟨h, _, rfl⟩ := hr
  rfl

/-- C6: `get_portfolio_summary` returns exactly the `get_holdings`
listing, its total_invested is the sum of purchase_price * shares over
that listing, its current_value is the sum of the listing's total_value
fields (equivalently of current_price * shares), and its total_gain_loss
is current_value minus total_invested. -/
theorem c6_summary_consistent_with_listing (qp : QuoteProvider)
    (db : List Holding) (uid : Nat) :
    (get_portfolio_summary qp db uid).holdings = get_holdings qp db uid
    ∧ (get_portfolio_summary qp db uid).total_invested =
        ((get_holdings qp db uid).map
          (fun r => r.purchase_price * (r.shares : Rat))).sum
    ∧ (get_portfolio_summary qp db uid).current_value =
        ((get_holdings qp db uid).map (fun r => r.total_value)).sum
    ∧ (get_portfolio_summary qp db uid).current_value =
        ((get_holdings qp db uid).map
          (fun r => r.current_price * (r.shares : Rat))).sum
    ∧ (get_portfolio_summary qp db uid).total_gain_loss =
        (get_portfolio_summary qp db uid).current_value -
          (get_portfolio_summary qp db uid).total_invested := by
  refine ⟨rfl, rfl, rfl, ?_, rfl⟩
  show ((get_holdings qp db uid).map (fun r => r.total_value)).sum = _
  exact congrArg List.sum
    (List.map_congr_left (get_holdings_total_value_eq qp db uid))

/-! ## C7: zero invested gives zero percent, never a division fault -/

/-- C7: the gain/loss percent is defined as 0 whenever the invested
amount is 0: per holding, `gain_loss_percent = 0` when
`purchase_price * shares = 0`; at summary level,
`total_gain_loss_percent = 0` whenever `total_invested = 0`; and for a
user with no stored rows the summary is all zeros with an empty listing. -/
theorem c7_zero_invested_gives_zero_percent (qp : QuoteProvider)
    (db : List Holding) (uid : Nat)
    (hempty : db.filter (fun h => h.user_id == uid) = []) :
    get_portfolio_summary qp db uid =
      { total_invested := 0, current_value := 0, total_gain_loss := 0,
        total_gain_loss_percent := 0, holdings := [] }
    ∧ (∀ h : Holding, h.purchase_price * (h.shares : Rat) = 0 →
        (holdingResponse qp h).gain_loss_percent = 0)
    ∧ ∀ (qp2 : QuoteProvider) (db2 : List Holding) (uid2 : Nat),
        (get_portfolio_summary qp2 db2 uid2).total_invested = 0 →
        (get_portfolio_summary qp2 db2 uid2).total_gain_loss_percent = 0 := by
  refine ⟨by simp [get_portfolio_summary, get_holdings, hempty], ?_, ?_⟩
  · intro h hinv
    simp only [holdingResponse]
    rw [hinv]
    simp
  · intro qp2 db2 uid2 hz
    simp only [get_portfolio_summary] at hz ⊢
    rw [hz]
    simp

/-- C7 witness: user 9 has no rows in a one-row table owned by user 7. -/
theorem c7_zero_invested_gives_zero_percent_witness :
    ([⟨1, 7, "AAPL", "Apple", 10, 5, 0⟩] : List Holding).filter
        (fun h => h.user_id == 9) = []
    ∧ get_portfolio_summary (fun _ => none) [⟨1, 7, "AAPL", "Apple", 10, 5, 0⟩] 9 =
        { total_invested := 0, current_value := 0, total_gain_loss := 0,
          total_gain_loss_percent := 0, holdings := [] } :=
  ⟨by decide,
   (c7_zero_invested_gives_zero_percent (fun _ => none)
      [⟨1, 7, "AAPL", "Apple", 10, 5, 0⟩] 9 (by decide)).1⟩

/-! ## C9: a successful share update is frame-preserving -/

theorem updateFirst_decomp (p : Holding → Bool) (f : Holding → Holding) :
    ∀ (db : List Holding) (h0 : Holding), db.find? p = some h0 →
      ∃ l r, db = l ++ h0 :: r ∧ (∀ x ∈ l, p x = false) ∧
        updateFirst p f db = l ++ f h0 :: r := by
  intro db
  induction db with
  | nil => intro h0 hf; simp at hf
  | cons a t ih =>
    intro h0 hf
    by_cases hp : p a
    · rw [List.find?_cons_of_pos _ hp] at hf
      obtain rfl : a = h0 := by injection hf
      exact ⟨[], t, rfl, by intro x hx; simp at hx, by simp [updateFirst, hp]⟩
    · rw [List.find?_cons_of_neg _ hp] at hf
      obtain ⟨l, r, hdb, hl, hupd⟩ := ih h0 hf
      refine ⟨a :: l, r, by rw [hdb]; rfl, ?_, ?_⟩
      · intro x hx
        rcases List.mem_cons.mp hx with rfl | hx'
        · exact Bool.eq_false_iff.mpr hp
        · exact hl x hx'
      · simp [updateFirst, hp, hupd]

/-- C9: when `update_holding` succeeds, the table decomposes around one
row `h0` matching `(holding_id, owner)` — no earlier row matches — and
the only change is that row's share count: the new table is the old one
with `h0` replaced by `h0` carrying the new share count, and the
returned holding agrees with `h0` on purchase price, company name,
symbol, owner, id and creation timestamp. -/
theorem c9_successful_update_touches_only_shares (db : List Holding)
    (uid hid : Nat) (s : Int) (h' : Holding)
    (hok : (update_holding db uid hid s).2 = .ok h') :
    ∃ l h0 r, db = l ++ h0 :: r
      ∧ (∀ x ∈ l, holdingMatches hid uid x = false)
      ∧ h0.id = hid ∧ h0.user_id = uid
      ∧ (update_holding db uid hid s).1 = l ++ { h0 with shares := s } :: r
      ∧ h' = { h0 with shares := s }
      ∧ h'.shares = s
      ∧ h'.purchase_price = h0.purchase_price
      ∧ h'.company_name = h0.company_name
      ∧ h'.symbol = h0.symbol
      ∧ h'.user_id = h0.user_id
      ∧ h'.id = h0.id
      ∧ h'.purchased_at = h0.purchased_at := by
  rcases hfind : db.find? (holdingMatches hid uid) with _ | h0
  · rw [update_holding, hfind] at hok
    simp at hok
  · by_cases hs : s ≤ 0
    · rw [update_holding, hfind] at hok
      simp [hs] at hok
    · have hmatch := (holdingMatches_iff hid uid h0).mp (List.find?_some hfind)
      have hok' : h' = { h0 with shares := s } := by
        rw [update_holding, hfind] at hok
        simp [hs] at hok
        exact hok.symm
      obtain ⟨l, r, hdb, hl, hupd⟩ :=
        updateFirst_decomp (holdingMatches hid uid)
          (fun h => { h with shares := s }) db h0 hfind
      refine ⟨l, h0, r, hdb, hl, hmatch.1, hmatch.2, ?_, hok', by rw [hok'],
        by rw [hok'], by rw [hok'], by rw [hok'], by rw [hok'], by rw [hok'],
        by rw [hok']⟩
      rw [update_holding, hfind]
      simp [hs]
      exact hupd

/-- Fixture for the C9 witness: a one-row table owned by user 7. -/
def c9db : List Holding := [⟨1, 7, "AAPL", "Apple", 10, 5, 0⟩]

/-- Fixture for the C9 witness: the expected updated holding. -/
def c9h : Holding := ⟨1, 7, "AAPL", "Apple", 4, 5, 0⟩

/-- C9 witness: updating the row to 4 shares succeeds and the frame
decomposition holds concretely. -/
theorem c9_successful_update_touches_only_shares_witness :
    (update_holding c9db 7 1 4).2 = .ok c9h
    ∧ ∃ l h0 r, c9db = l ++ h0 :: r
        ∧ (∀ x ∈ l, holdingMatches 1 7 x = false)
        ∧ h0.id = 1 ∧ h0.user_id = 7
        ∧ (update_holding c9db 7 1 4).1 = l ++ { h0 with shares := 4 } :: r
        ∧ c9h = { h0 with shares := 4 }
        ∧ c9h.shares = 4
        ∧ c9h.purchase_price = h0.purchase_price
        ∧ c9h.company_name = h0.company_name
        ∧ c9h.symbol = h0.symbol
        ∧ c9h.user_id = h0.user_id
        ∧ c9h.id = h0.id
        ∧ c9h.purchased_at = h0.purchased_at :=
  ⟨rfl, c9_successful_update_touches_only_shares c9db 7 1 4 c9h rfl⟩

/-! ## C2: primitive constraints are enforced at the boundary only -/

/-- Fixture for C2: a profile endpoint that resolves every symbol. -/
def c2profiles : ProfileProvider :=
  fun _ => some { companyName := some "Apple Inc." }

/-- C2 counterexample: a creation request with `shares = 0` that reaches
the ledger is accepted by `add_holding` — it raises no InvalidArgument
and persists the row (row count goes from 0 to 1), contrary to the claim
that the ledger itself re-enforces `shares > 0` / `purchase_price > 0`. -/
theorem c2_counterexample_ledger_accepts_nonpositive :
    (add_holding c2profiles [] 7 1 0
        { symbol := "AAPL", shares := 0, purchase_price := 10 }).2.isOk = true
    ∧ (add_holding c2profiles [] 7 1 0
        { symbol := "AAPL", shares := 0, purchase_price := 10 }).1.length = 1 :=
  ⟨rfl, rfl⟩

/-- C2 (amended): requests with non-positive shares or purchase price are
rejected only by the boundary-layer schema (`Field(gt=0)` on
`PortfolioHoldingCreate`); the ledger's `add_holding` itself applies no
primitive-constraint check, and given any resolvable symbol it persists
the row even for such values. -/
theorem c2_amended_primitive_validation_boundary_only
    (data : PortfolioHoldingCreate)
    (hbad : data.shares ≤ 0 ∨ data.purchase_price ≤ 0) :
    portfolioHoldingCreateValid data = false
    ∧ ∀ (profiles : ProfileProvider) (db : List Holding)
        (user nextId now : Nat) (p : Profile),
        profiles data.symbol = some p →
        (add_holding profiles db user nextId now data).2.isOk = true
        ∧ (add_holding profiles db user nextId now data).1.length =
            db.length + 1 := by
  constructor
  · simp only [portfolioHoldingCreateValid, Bool.and_eq_false_iff,
      decide_eq_false_iff_not]
    rcases hbad with hb | hb
    · exact Or.inl (not_lt.mpr hb)
    · exact Or.inr (not_lt.mpr hb)
  · intro profiles db user nextId now p hp
    refine ⟨?_, ?_⟩ <;> simp only [add_holding, hp]
    · rfl
    · simp

/-- C2 (amended) witness: the zero-share request fails the boundary
schema validation. -/
theorem c2_amended_primitive_validation_boundary_only_witness :
    ((0 : Int) ≤ 0 ∨ (10 : Rat) ≤ 0)
    ∧ portfolioHoldingCreateValid { symbol := "AAPL", shares := 0, purchase_price := 10 } = false :=
  ⟨Or.inl le_rfl,
   (c2_amended_primitive_validation_boundary_only
      { symbol := "AAPL", shares := 0, purchase_price := 10 }
      (Or.inl le_rfl)).1⟩
